import Mathlib

/-
Shallow embedding of the ForumVersusGaia bounded recursive navigation
controller, translated from src/forum_versus_gaia/more_agents/pdf_finder_agent.py
and src/forum_versus_gaia/utils.py.

External collaborators (the language model, the HTTP fetch, the SerpAPI
search provider, pypdf page extraction, the token counter) are modelled as a
record of pure functions (Oracle).  The branching conversation store of the
agentforum runtime is a dependency that is not part of this repository;
following the specification (sections 3 and 4.3) a branch is modelled as the
append-only root-to-leaf list of its messages.
-/

set_option linter.unusedVariables false

namespace FVG

/-- MAX_RETRIES constant from pdf_finder_agent.py. -/
def MAX_RETRIES : Nat := 3

/-- MAX_DEPTH constant from pdf_finder_agent.py.  The Python value is the
int 7; the depth argument only ever takes the values 7, 6, ..., 0, so the
budget is modelled as a Nat and the guard depth ≤ 0 becomes depth = 0. -/
def MAX_DEPTH : Nat := 7

/-- PDF_MAX_TOKENS constant from pdf_finder_agent.py. -/
def PDF_MAX_TOKENS : Nat := 100000

/-- REMOVE_GAIA_LINKS constant from forum_versus_gaia_config.py. -/
def REMOVE_GAIA_LINKS : Bool := true

/-- LRU_MAXSIZE is the default maxsize of functools.lru_cache, which
decorates get_serpapi_results in utils.py with no explicit size. -/
def LRU_MAXSIZE : Nat := 128

/-- The exception taxonomy of utils.py.  Every constructor carries the
message string passed to the exception.  The constructor externalError
stands for exceptions escaping from external libraries (such as pypdf page
extraction), which are not ForumVersusGaiaError subclasses. -/
inductive AgentError where
  | notAUrl (message : String)
  | contentMismatch (message : String)
  | contentNotFound (message : String)
  | contentAlreadySeen (message : String)
  | tooManySteps (message : String)
  | forumVersusGaia (message : String)
  | externalError (message : String)
deriving DecidableEq, Repr

/-- True exactly on the TooManySteps error kind. -/
def AgentError.isTooManySteps : AgentError → Bool
  | .tooManySteps _ => true
  | _ => false

/-- True exactly on the NotAUrl error kind. -/
def AgentError.isNotAUrl : AgentError → Bool
  | .notAUrl _ => true
  | _ => false

/-- The message string carried by an error. -/
def AgentError.message : AgentError → String
  | .notAUrl m => m
  | .contentMismatch m => m
  | .contentNotFound m => m
  | .contentAlreadySeen m => m
  | .tooManySteps m => m
  | .forumVersusGaia m => m
  | .externalError m => m

/- ------------------------------------------------------------------
URL validation: is_valid_url and assert_valid_url from utils.py.
is_valid_url calls urllib.parse.urlparse and checks that both the scheme
and the netloc component are nonempty, returning False when urlparse
raises ValueError.  urlparse is modelled below (urlsplit_model) by the
scheme/netloc extraction of CPython urllib.parse.urlsplit: strip leading
C0-control-or-space characters, drop tab, CR and LF everywhere, split a
scheme before the first colon when it is a letter followed by scheme
characters, read the netloc after a leading double slash up to the next
slash, question mark or hash, and raise ValueError (the .error case) on
unbalanced square brackets in the netloc.
------------------------------------------------------------------ -/

/- Python string primitives.  The corresponding core String functions
(String.trim, String.toLower, String.toUpper, String.replace,
String.splitOn) are compiled by well-founded recursion and do not reduce
inside the kernel, so the development re-implements them structurally
over the character list of a string. -/

/-- Python str.strip() with the default whitespace characters. -/
def pyStrip (s : String) : String :=
  String.mk (((s.data.dropWhile Char.isWhitespace).reverse.dropWhile
    Char.isWhitespace).reverse)

/-- Python str.lower() restricted to the ASCII case mapping. -/
def pyLower (s : String) : String := String.mk (s.data.map Char.toLower)

/-- Python str.upper() restricted to the ASCII case mapping. -/
def pyUpper (s : String) : String := String.mk (s.data.map Char.toUpper)

/-- Whether pat is a leading segment of s. -/
def isStartOf : List Char → List Char → Bool
  | [], _ => true
  | _ :: _, [] => false
  | a :: as, b :: bs => a == b && isStartOf as bs

/-- Whether pat occurs inside s. -/
def hasSubstringCs (pat : List Char) : List Char → Bool
  | [] => isStartOf pat []
  | c :: rest => isStartOf pat (c :: rest) || hasSubstringCs pat rest

/-- The Python in operator on strings: pat occurs as a substring of s. -/
def hasSubstring (s pat : String) : Bool := hasSubstringCs pat.data s.data

/-- Python str.replace on character lists, replacing non-overlapping
occurrences left to right; the fuel argument (instantiated with the
length of the subject) keeps the recursion structural.  An empty pattern
is left alone (no call site uses one). -/
def replaceFuel (old new : List Char) : Nat → List Char → List Char
  | 0, s => s
  | _ + 1, [] => []
  | fuel + 1, c :: rest =>
    if isStartOf old (c :: rest) && !old.isEmpty then
      new ++ replaceFuel old new fuel ((c :: rest).drop old.length)
    else c :: replaceFuel old new fuel rest

/-- Python str.replace. -/
def pyReplace (s old new : String) : String :=
  String.mk (replaceFuel old.data new.data s.data.length s.data)

/-- A character belonging to the scheme_chars set of urllib.parse. -/
def scheme_char (c : Char) : Bool :=
  c.isAlpha || c.isDigit || c == '+' || c == '-' || c == '.'

/-- C0 control characters and space, stripped from the start of a URL by
urlsplit. -/
def c0_or_space (c : Char) : Bool := c.toNat ≤ 0x20

/-- Tab, carriage return and line feed, removed everywhere by urlsplit. -/
def tab_cr_lf (c : Char) : Bool := c == '\t' || c == '\r' || c == '\n'

/-- Split a character list at the first colon: returns the part before and
the part after it, or none when there is no colon. -/
def splitAtColon : List Char → Option (List Char × List Char)
  | [] => none
  | c :: cs =>
    if c = ':' then some ([], cs)
    else
      match splitAtColon cs with
      | some (pre, post) => some (c :: pre, post)
      | none => none

/-- A character ending the netloc component: slash, question mark, hash. -/
def netloc_delim (c : Char) : Bool := c == '/' || c == '?' || c == '#'

/-- The scheme and netloc components of a parsed URL. -/
structure UrlParts where
  scheme : String
  netloc : String
deriving DecidableEq, Repr

/-- Model of urllib.parse.urlsplit restricted to the scheme and netloc
components used by is_valid_url.  The .error case models ValueError. -/
def urlsplit_model (text : String) : Except Unit UrlParts :=
  let cs := (text.data.dropWhile c0_or_space).filter (fun c => !tab_cr_lf c)
  let p :=
    match splitAtColon cs with
    | some (pre, post) =>
      if pre ≠ [] ∧ (pre.headD ' ').isAlpha ∧ pre.all scheme_char then
        (pre.map Char.toLower, post)
      else ([], cs)
    | none => ([], cs)
  match p.2 with
  | '/' :: '/' :: r =>
    let netloc := r.takeWhile (fun c => !netloc_delim c)
    if (netloc.contains '[' && !netloc.contains ']')
        || (netloc.contains ']' && !netloc.contains '[') then
      .error ()
    else
      .ok { scheme := String.mk p.1, netloc := String.mk netloc }
  | _ => .ok { scheme := String.mk p.1, netloc := "" }

/-- is_valid_url from utils.py: true iff urlparse succeeds and both the
scheme and the netloc are nonempty (truthy). -/
def is_valid_url (text : String) : Bool :=
  match urlsplit_model text with
  | .ok parts => parts.scheme != "" && parts.netloc != ""
  | .error _ => false

/-- assert_valid_url from utils.py: raises error_class applied to the url
when the url is not valid.  The source default for error_class is
NotAUrlError; pdf_browsing_agent passes ContentNotFoundError explicitly. -/
def assert_valid_url (url : String) (error_class : String → AgentError) :
    Except AgentError Unit :=
  if is_valid_url url then .ok () else .error (error_class url)

/- ------------------------------------------------------------------
Search results and the deny-list filter of get_serpapi_results (utils.py).
------------------------------------------------------------------ -/

/-- One organic search result returned by SerpAPI; only the link field is
inspected by the repository code, the title stands for the rest of the
record. -/
structure SearchResult where
  title : String
  link : String
deriving DecidableEq, Repr

/-- The deny-list predicate of get_serpapi_results: a link is denied when
it contains gaia-benchmark case-insensitively or contains 2311.12983. -/
def gaia_link_denied (link : String) : Bool :=
  hasSubstring (pyLower link) "gaia-benchmark" || hasSubstring link "2311.12983"

/-- The pure body of get_serpapi_results from utils.py applied to the raw
organic_results list obtained from the search provider: when
remove_gaia_links is set, deny-listed links are filtered out. -/
def get_serpapi_results (raw : List SearchResult) (remove_gaia_links : Bool) :
    List SearchResult :=
  if remove_gaia_links then raw.filter (fun r => !gaia_link_denied r.link)
  else raw

/- ------------------------------------------------------------------
The branching conversation store.  Modelled from the spec: a branch is the
append-only root-to-leaf list of its messages; forking from a node of a
failed attempt is concatenation after that attempt's chain (spec sections
3 and 4.3; the agentforum runtime implementing it is not part of this
repository).  A message carries its text content and the optional
page_url and pdf attributes used by pdf_finder_agent.py.
------------------------------------------------------------------ -/

structure Msg where
  content : String
  page_url : Option String
  pdf : Option String
deriving DecidableEq, Repr

/-- acollect_tried_urls from pdf_finder_agent.py: the set of page_url
attributes of the messages of the full history of the current branch.
The Python set is modelled as a deduplicated list. -/
def acollect_tried_urls (history : List Msg) : List String :=
  (history.filterMap (fun m => m.page_url)).dedup

/-- acollect_checked_pdfs from pdf_finder_agent.py: the set of pdf
attributes of the messages of the full history of the current branch. -/
def acollect_checked_pdfs (history : List Msg) : List String :=
  (history.filterMap (fun m => m.pdf)).dedup

/-- remove_tried_urls_in_markdown from pdf_finder_agent.py: blanks out the
markdown link target (url) as (#) for every tried url.  The Python
iteration over a set is modelled as a fold over the deduplicated list. -/
def remove_tried_urls_in_markdown (prompt_context : String)
    (tried_urls : List String) : String :=
  tried_urls.foldl
    (fun acc url => pyReplace acc ("(" ++ url ++ ")") "(#)") prompt_context

/- ------------------------------------------------------------------
PDF text extraction (adownload_from_web in utils.py).
------------------------------------------------------------------ -/

/-- The page-by-page list comprehension of adownload_from_web: it
collects every page text and aborts at the first page whose extraction
raised (none). -/
def sequencePages : List (Option String) → Option (List String)
  | [] => some []
  | none :: _ => none
  | some t :: rest =>
    match sequencePages rest with
    | some ts => some (t :: ts)
    | none => none

/-- The per-page extraction of a fetched PDF: each entry is the text pypdf
extracted from one page, or none when pypdf raised on that page. -/
def extract_pdf_text (pages : List (Option String)) : Option String :=
  match sequencePages pages with
  | some texts => some (String.intercalate "\n" texts)
  | none => none

/-- Modelled from the spec: extract_pdf_text as section 4.1 words it, where
failure to parse a page degrades that page to an empty string rather than
aborting the whole document.  Kept separate from extract_pdf_text (the
source behaviour) to compare the two. -/
def extract_pdf_text_spec (pages : List (Option String)) : String :=
  String.intercalate "\n" (pages.map (fun p => p.getD ""))

/- ------------------------------------------------------------------
Oracle for the external collaborators and the observable events of a
controller execution.
------------------------------------------------------------------ -/

/-- What an HTTP GET of a URL yields, after content-type classification:
an application/pdf body (as the list of per-page extraction outcomes), a
text/html body (already converted to markdown by html2text, which is
external), or some other content type. -/
inductive FetchResult where
  | pdfPages (pages : List (Option String))
  | htmlPage (text : String)
  | otherContent (content_type : String)
deriving DecidableEq, Repr

/-- The context forwarded to the model by ask_gpt_for_url: either the
filtered search result list (serialised to JSON in the source) or the
processed page text. -/
inductive PromptContext where
  | searchResults (results : List SearchResult)
  | pageText (text : String)
deriving DecidableEq, Repr

/-- Observable external actions of the controller. -/
inductive Event where
  | searchEv (query : String)
  | fetchEv (url : String)
  | askEv (ctxt : PromptContext)
deriving DecidableEq, Repr

/-- The external collaborators: the web fetch, the raw SerpAPI organic
results for a query, the model completion of ask_gpt_for_url (given the
conversation and the prompt context), the model judgment used by
aextract_pdf_snippets on a pdf text, and the token counter. -/
structure Oracle where
  fetch : String → FetchResult
  serpapi : String → List SearchResult
  askUrl : List Msg → PromptContext → String
  judgePdf : String → String
  numTokens : String → Nat

/-- adownload_from_web from utils.py: a PDF body is decoded page by page
and joined with newlines (a page failure aborts with the pypdf exception,
modelled as externalError); an HTML body is returned as text; any other
content type raises ContentMismatchError. -/
def adownload_from_web (o : Oracle) (url : String) :
    Except AgentError (String × Bool) :=
  match o.fetch url with
  | .pdfPages pages =>
    match extract_pdf_text pages with
    | some text => .ok (text, true)
    | none => .error (.externalError "pypdf page extraction failed")
  | .htmlPage text => .ok (text, false)
  | .otherContent ct =>
    .error (.contentMismatch
      ("Expected a PDF or HTML document but got " ++ ct ++ " instead."))

/-- The message wrapping of the pdf text used by aextract_pdf_snippets
before counting tokens. -/
def wrap_pdf_text (pdf_text : String) : String :=
  "=============== PDF START ===============\n" ++ pdf_text ++
    "\n================ PDF END ================"

/-- apartition_pdf_and_extract_snippets from pdf_finder_agent.py: raises
ForumVersusGaiaError unconditionally (the rest of its body is marked
unreachable in the source). -/
def apartition_pdf_and_extract_snippets (pdf_text : String) :
    Except AgentError String :=
  .error (.forumVersusGaia "PDF partitioning is not implemented yet")

/-- aextract_pdf_snippets from pdf_finder_agent.py: when the wrapped pdf
text exceeds PDF_MAX_TOKENS tokens it delegates to
apartition_pdf_and_extract_snippets; otherwise it asks the model and
raises ContentMismatchError on the MISMATCH reply. -/
def aextract_pdf_snippets (o : Oracle) (pdf_text : String) :
    Except AgentError String :=
  if PDF_MAX_TOKENS < o.numTokens (wrap_pdf_text pdf_text) then
    apartition_pdf_and_extract_snippets pdf_text
  else
    let answer := pyStrip (o.judgePdf pdf_text)
    if pyUpper answer == "MISMATCH" then
      .error (.contentMismatch
        "This PDF document does not contain any relevant information.")
    else .ok answer

/- ------------------------------------------------------------------
The navigation controller: pdf_browsing_agent and pdf_finder_agent from
pdf_finder_agent.py.
------------------------------------------------------------------ -/

/-- The outcome of one controller invocation body (without the recursion):
either a terminal result, or a continuation message to be told to the next
invocation.  The event list records the external actions taken. -/
inductive StepResult where
  | done (result : Except AgentError Msg) (events : List Event)
  | next (events : List Event) (nextMsg : Msg)
deriving Repr

/-- The events of a step body outcome. -/
def StepResult.events : StepResult → List Event
  | .done _ evs => evs
  | .next evs _ => evs

/-- ask_gpt_for_url from pdf_finder_agent.py: the stripped model
completion. -/
def ask_gpt_for_url (o : Oracle) (full : List Msg) (ctxt : PromptContext) :
    String :=
  pyStrip (o.askUrl full ctxt)

/-- The tail of the pdf_browsing_agent body shared by its search and fetch
branches: ask the model for the next URL, validate it with error class
ContentNotFoundError, and either continue with a message whose content and
page_url attribute are the URL (content_template binds content to
page_url in the source) or fail. -/
def ask_for_next (o : Oracle) (full : List Msg) (ctxt : PromptContext)
    (evs : List Event) : StepResult :=
  let page_url := ask_gpt_for_url o full ctxt
  match assert_valid_url page_url AgentError.contentNotFound with
  | .ok _ =>
    .next (evs ++ [.askEv ctxt])
      { content := page_url, page_url := some page_url, pdf := none }
  | .error e => .done (.error e) (evs ++ [.askEv ctxt])

/-- One body of pdf_browsing_agent after the depth guard, translated
line for line: when the request message has a page_url attribute, fetch it
(a PDF is judged and answered, a previously seen PDF raises
ContentAlreadySeenError, an HTML page has tried links blanked and is shown
to the model); otherwise search, filter out tried and deny-listed links,
and show the results to the model. -/
def browse_step (o : Oracle) (hist : List Msg) (request : Msg) : StepResult :=
  let full := hist ++ [request]
  let tried := acollect_tried_urls full
  match request.page_url with
  | some url =>
    match adownload_from_web o url with
    | .error e => .done (.error e) [.fetchEv url]
    | .ok (web_content, true) =>
      if web_content ∈ acollect_checked_pdfs full then
        .done (.error (.contentAlreadySeen "")) [.fetchEv url]
      else
        match aextract_pdf_snippets o web_content with
        | .error e => .done (.error e) [.fetchEv url]
        | .ok snippets =>
          .done (.ok { content := snippets, page_url := none,
                       pdf := some web_content }) [.fetchEv url]
    | .ok (web_content, false) =>
      ask_for_next o full
        (.pageText (remove_tried_urls_in_markdown web_content tried))
        [.fetchEv url]
  | none =>
    let organic :=
      (get_serpapi_results (o.serpapi request.content) REMOVE_GAIA_LINKS).filter
        (fun r => !tried.contains (pyStrip r.link))
    ask_for_next o full (.searchResults organic) [.searchEv request.content]

/-- The outcome of a full (recursive) pdf_browsing_agent invocation: the
terminal result, the events in order, the messages appended to the branch
below the request, and the number of controller invocations made. -/
structure StepOut where
  result : Except AgentError Msg
  events : List Event
  newMsgs : List Msg
  steps : Nat
deriving Repr

/-- The failure message of the depth guard.  The source text reads: I
could not find a PDF document within a reasonable number of steps. -/
def tooManyStepsMessage : String :=
  "I could not find a PDF document within a reasonable number of steps."

/-- pdf_browsing_agent from pdf_finder_agent.py: the depth guard raises
TooManyStepsError before any external action; otherwise the body runs and
a continuation is told to a fresh invocation at depth - 1 on the branch
extended with the continuation message. -/
def pdf_browsing_agent (o : Oracle) : List Msg → Msg → Nat → StepOut
  | _, _, 0 =>
    { result := .error (.tooManySteps tooManyStepsMessage),
      events := [], newMsgs := [], steps := 1 }
  | hist, request, d + 1 =>
    match browse_step o hist request with
    | .done r evs => { result := r, events := evs, newMsgs := [], steps := 1 }
    | .next evs nextMsg =>
      let sub := pdf_browsing_agent o (hist ++ [request]) nextMsg d
      { result := sub.result, events := evs ++ sub.events,
        newMsgs := nextMsg :: sub.newMsgs, steps := sub.steps + 1 }

/-- A failure response recorded in the branch.  Modelled from the spec:
an agent error becomes an error message node in the conversation store,
carrying its text (section 3; the agentforum runtime records errors in
the branch so that a retry branching from the failing attempt sees
them). -/
def errorMsgNode (e : AgentError) : Msg :=
  { content := e.message, page_url := none, pdf := none }

/-- The outcome of the retry loop of pdf_finder_agent for one query. -/
structure FinderOut where
  result : Except AgentError Msg
  events : List Event
  chain : List Msg
  steps : Nat
deriving Repr

/-- The retry loop of pdf_finder_agent from pdf_finder_agent.py for one
query: up to the given number of attempts, each asking pdf_browsing_agent
with the same query at full MAX_DEPTH, each retry branching from the
failing attempt (branch_from=responses), stopping at the first attempt
whose responses contain no error; when all attempts fail, the last failure
is what gets responded.  The source runs this with MAX_RETRIES attempts. -/
def pdf_finder_agent (o : Oracle) : List Msg → String → Nat → FinderOut
  | hist, _, 0 =>
    { result := .error (.contentNotFound "no attempt was made"),
      events := [], chain := hist, steps := 0 }
  | hist, query, 1 =>
    let req : Msg := { content := query, page_url := none, pdf := none }
    let out := pdf_browsing_agent o hist req MAX_DEPTH
    match out.result with
    | .ok m =>
      { result := .ok m, events := out.events,
        chain := (hist ++ req :: out.newMsgs) ++ [m], steps := out.steps }
    | .error e =>
      { result := .error e, events := out.events,
        chain := (hist ++ req :: out.newMsgs) ++ [errorMsgNode e],
        steps := out.steps }
  | hist, query, n + 2 =>
    let req : Msg := { content := query, page_url := none, pdf := none }
    let out := pdf_browsing_agent o hist req MAX_DEPTH
    match out.result with
    | .ok m =>
      { result := .ok m, events := out.events,
        chain := (hist ++ req :: out.newMsgs) ++ [m], steps := out.steps }
    | .error e =>
      let chain := (hist ++ req :: out.newMsgs) ++ [errorMsgNode e]
      let nxt := pdf_finder_agent o chain query (n + 1)
      { result := nxt.result, events := out.events ++ nxt.events,
        chain := nxt.chain, steps := out.steps + nxt.steps }

/- ------------------------------------------------------------------
The lru_cache memoisation of get_serpapi_results (utils.py).  The bare
functools.lru_cache decorator keeps at most LRU_MAXSIZE = 128 entries in
least-recently-used order; a hit moves the entry to the front, a miss
consults the provider, inserts the entry at the front and evicts the
least recently used entry when the table overflows.
------------------------------------------------------------------ -/

/-- Look up the value cached for a key in an association list. -/
def assocFind {K V : Type} [DecidableEq K] : List (K × V) → K → Option V
  | [], _ => none
  | p :: ps, k => if p.1 = k then some p.2 else assocFind ps k

/-- Remove the first entry for a key from an association list. -/
def removeKey {K V : Type} [DecidableEq K] : List (K × V) → K → List (K × V)
  | [], _ => []
  | p :: ps, k => if p.1 = k then ps else p :: removeKey ps k

/-- An LRU cache state: the entries most-recent-first, and how many times
the underlying provider has been consulted so far. -/
structure LruState (K V : Type) where
  cache : List (K × V)
  counter : Nat

/-- One call through an lru_cache wrapper.  The provider takes the
consultation index so that distinct consultations may observe different
provider answers.  Returns the value, whether the provider was consulted,
and the new state. -/
def lruStep {K V : Type} [DecidableEq K] (provider : K → Nat → V)
    (st : LruState K V) (k : K) : (V × Bool) × LruState K V :=
  match assocFind st.cache k with
  | some v => ((v, false), ⟨(k, v) :: removeKey st.cache k, st.counter⟩)
  | none =>
    let v := provider k st.counter
    let c := (k, v) :: st.cache
    ((v, true), ⟨if LRU_MAXSIZE < c.length then c.dropLast else c,
      st.counter + 1⟩)

/-- Run a sequence of calls through an lru_cache wrapper, logging for each
call its key, its returned value and whether the provider was consulted. -/
def lruRun {K V : Type} [DecidableEq K] (provider : K → Nat → V)
    (st : LruState K V) : List K → List (K × V × Bool)
  | [] => []
  | k :: ks =>
    let r := lruStep provider st k
    (k, r.1.1, r.1.2) :: lruRun provider r.2 ks

/-- How many calls in a log consulted the provider for the given key. -/
def consultCount {K V : Type} [DecidableEq K] (log : List (K × V × Bool))
    (k : K) : Nat :=
  (log.filter (fun e => decide (e.1 = k) && e.2.2)).length

/-- get_serpapi_results as deployed: memoised with lru_cache over the
argument pair (query, remove_gaia_links), the cached value being the
already filtered organic result list.  The provider stands for the
GoogleSearch call returning the raw organic_results of the consultation. -/
def get_serpapi_results_cached
    (provider : String × Bool → Nat → List SearchResult)
    (st : LruState (String × Bool) (List SearchResult))
    (calls : List (String × Bool)) :
    List ((String × Bool) × List SearchResult × Bool) :=
  lruRun (fun kb n => get_serpapi_results (provider kb n) kb.2) st calls

/- ------------------------------------------------------------------
Concrete oracles used to evaluate the controller on closed inputs.
------------------------------------------------------------------ -/

/-- An oracle whose model always proposes the same valid URL and whose web
always answers with an HTML page: navigation never finds a PDF and burns
the whole depth budget on every attempt. -/
def loopingOracle : Oracle :=
  { fetch := fun _ => .htmlPage "page"
    serpapi := fun _ => []
    askUrl := fun _ _ => "http://x.example/"
    judgePdf := fun _ => ""
    numTokens := fun _ => 0 }

/-- An oracle whose model never returns a URL: every attempt fails URL
validation immediately. -/
def noUrlOracle : Oracle :=
  { fetch := fun _ => .htmlPage ""
    serpapi := fun _ => []
    askUrl := fun _ _ => "no url found"
    judgePdf := fun _ => ""
    numTokens := fun _ => 0 }

/-- An oracle whose model proposes a valid URL whose fetch yields an
unexpected content type: the nested invocation fails with
ContentMismatchError. -/
def mismatchOracle : Oracle :=
  { fetch := fun _ => .otherContent "text/plain"
    serpapi := fun _ => []
    askUrl := fun _ _ => "http://x.example/"
    judgePdf := fun _ => ""
    numTokens := fun _ => 0 }

/-- An oracle whose token counter always reports more than
PDF_MAX_TOKENS tokens. -/
def bigPdfOracle : Oracle :=
  { fetch := fun _ => .pdfPages [some "text"]
    serpapi := fun _ => []
    askUrl := fun _ _ => ""
    judgePdf := fun _ => ""
    numTokens := fun _ => PDF_MAX_TOKENS + 1 }

/-- A provider for the memoisation counterexample: the answer records the
consultation index in the link of its single result, so distinct
consultations are observably different. -/
def countingProvider : String × Bool → Nat → List SearchResult :=
  fun _ n => [{ title := "t", link := toString n }]

/-- A call sequence with 129 distinct argument pairs followed by a repeat
of the first pair: one more distinct pair than lru_cache retains. -/
def evictionCalls : List (String × Bool) :=
  ((List.range 129).map (fun n => (toString n, true))) ++ [("0", true)]

/- ------------------------------------------------------------------
Helper lemmas.
------------------------------------------------------------------ -/

theorem mem_acollect_tried_urls {h : List Msg} {u : String} :
    u ∈ acollect_tried_urls h ↔ ∃ m ∈ h, m.page_url = some u := by
  simp [acollect_tried_urls, List.mem_dedup, List.mem_filterMap]

/-- The search-branch step: the body issues exactly a search, then a model
consultation on the tried-and-deny filtered results. -/
def searched_results (o : Oracle) (hist : List Msg) (request : Msg) :
    List SearchResult :=
  (get_serpapi_results (o.serpapi request.content) REMOVE_GAIA_LINKS).filter
    (fun r => !(acollect_tried_urls (hist ++ [request])).contains (pyStrip r.link))

theorem browse_step_page_url_none (o : Oracle) (hist : List Msg)
    (request : Msg) (h : request.page_url = none) :
    (browse_step o hist request).events =
      [.searchEv request.content,
       .askEv (.searchResults (searched_results o hist request))] := by
  unfold browse_step searched_results ask_for_next
  rw [h]
  dsimp only
  split <;> rfl

theorem browse_step_page_url_some (o : Oracle) (hist : List Msg)
    (request : Msg) (url : String) (h : request.page_url = some url) :
    (browse_step o hist request).events = [Event.fetchEv url]
    ∨ ∃ c, (browse_step o hist request).events =
        [Event.fetchEv url, Event.askEv c] := by
  unfold browse_step ask_for_next
  rw [h]
  dsimp only
  rcases hd : adownload_from_web o url with e | ⟨wc, b⟩
  · exact Or.inl rfl
  · cases b
    · dsimp only
      split
      · exact Or.inr ⟨_, rfl⟩
      · exact Or.inr ⟨_, rfl⟩
    · dsimp only
      split
      · exact Or.inl rfl
      · split
        · exact Or.inl rfl
        · exact Or.inl rfl

theorem browse_step_fetch_mem {o : Oracle} {hist : List Msg} {request : Msg}
    {u : String} (hmem : Event.fetchEv u ∈ (browse_step o hist request).events) :
    request.page_url = some u := by
  rcases hpu : request.page_url with _ | url
  · rw [browse_step_page_url_none o hist request hpu] at hmem
    simp at hmem
  · rcases browse_step_page_url_some o hist request url hpu with hev | ⟨c, hev⟩ <;>
      rw [hev] at hmem <;> simp_all

/- ------------------------------------------------------------------
Claim C2 (corrected).
------------------------------------------------------------------ -/

/-- Claim C2, counterexample to the claim as stated: exhausting the retry
budget (MAX_RETRIES attempts, each failing) terminates the navigation in
FAIL with the last underlying failure kind (here ContentNotFound carrying
the model reply), not with a TooManySteps verdict; so retry-budget
exhaustion is not a TooManySteps terminal state. -/
theorem c2_counterexample_retry_exhaustion_not_too_many_steps :
    (pdf_finder_agent noUrlOracle [] "q" MAX_RETRIES).result =
      .error (.contentNotFound "no url found")
    ∧ AgentError.isTooManySteps (.contentNotFound "no url found") = false :=
  ⟨rfl, rfl⟩

/-- Claim C2, amended: the navigation step guards only the depth budget:
whenever depth_budget ≤ 0, the step performs no search, fetch or model
call (its event list is empty) and terminates in FAIL with a TooManySteps
verdict; there is no retry-budget entry guard in the step (retries are
the callers loop, and their exhaustion propagates the underlying
failure). -/
theorem c2_amended_depth_guard :
    ∀ (o : Oracle) (hist : List Msg) (request : Msg) (d : Nat), d ≤ 0 →
      pdf_browsing_agent o hist request d =
        { result := .error (.tooManySteps tooManyStepsMessage),
          events := [], newMsgs := [], steps := 1 } := by
  intro o hist request d hd
  have h0 : d = 0 := Nat.le_zero.mp hd
  subst h0
  rfl

/-- Witness for c2_amended_depth_guard at depth 0. -/
theorem c2_amended_depth_guard_witness :
    (0 : Nat) ≤ 0
    ∧ pdf_browsing_agent noUrlOracle []
        { content := "q", page_url := none, pdf := none } 0 =
        { result := .error (.tooManySteps tooManyStepsMessage),
          events := [], newMsgs := [], steps := 1 } :=
  ⟨Nat.le_refl 0,
   c2_amended_depth_guard noUrlOracle []
     { content := "q", page_url := none, pdf := none } 0 (Nat.le_refl 0)⟩

/- ------------------------------------------------------------------
Claim C1 (corrected).
------------------------------------------------------------------ -/

/-- Claim C1, counterexample to the claim as stated: with the initial
budgets D = MAX_DEPTH = 7 and R = MAX_RETRIES = 3 of the source, an
execution in which every attempt burns its whole depth budget makes 24
controller steps, exceeding D + R = 10; each retry restarts the same
branch with the full depth budget, so the depth budget is not
non-increasing along that path either. -/
theorem c1_counterexample_steps_exceed_budget_sum :
    (pdf_finder_agent loopingOracle [] "q" MAX_RETRIES).steps = 24
    ∧ ¬ (pdf_finder_agent loopingOracle [] "q" MAX_RETRIES).steps ≤
        MAX_DEPTH + MAX_RETRIES := by
  constructor
  · rfl
  · intro hle
    have h24 : (pdf_finder_agent loopingOracle [] "q" MAX_RETRIES).steps = 24 :=
      rfl
    rw [h24] at hle
    simp [MAX_DEPTH, MAX_RETRIES] at hle

/-- Claim C1, amended: within one recursive browsing chain the depth
budget decreases by one per hop, so a chain started with depth budget d
makes at most d + 1 controller invocations; the retry loop restarts each
of its up-to-n attempts with the full depth budget, so the whole
navigation for one query terminates within n * (MAX_DEPTH + 1) controller
steps (24 for the deployed constants), not within depth + retries. -/
theorem c1_amended_step_bounds :
    (∀ (o : Oracle) (hist : List Msg) (request : Msg) (d : Nat),
      (pdf_browsing_agent o hist request d).steps ≤ d + 1)
    ∧ (∀ (o : Oracle) (n : Nat) (hist : List Msg) (query : String),
      (pdf_finder_agent o hist query n).steps ≤ n * (MAX_DEPTH + 1)) := by
  have hb : ∀ (o : Oracle) (d : Nat) (hist : List Msg) (request : Msg),
      (pdf_browsing_agent o hist request d).steps ≤ d + 1 := by
    intro o d
    induction d with
    | zero => intro hist request; exact Nat.le_refl 1
    | succ d ih =>
      intro hist request
      simp only [pdf_browsing_agent]
      rcases hs : browse_step o hist request with ⟨r, evs⟩ | ⟨evs, nextMsg⟩
      · dsimp only
        omega
      · dsimp only
        have := ih (hist ++ [request]) nextMsg
        omega
  refine ⟨fun o hist request d => hb o d hist request, ?_⟩
  intro o n
  induction n using Nat.strong_induction_on with
  | h n ih =>
    intro hist query
    rcases n with _ | (_ | n)
    · simp [pdf_finder_agent]
    · simp only [pdf_finder_agent]
      have h8 := hb o MAX_DEPTH hist { content := query, page_url := none, pdf := none }
      rcases hr : (pdf_browsing_agent o hist
          { content := query, page_url := none, pdf := none } MAX_DEPTH).result with e | m <;>
        · dsimp only
          simpa using h8
    · simp only [pdf_finder_agent]
      have h8 := hb o MAX_DEPTH hist { content := query, page_url := none, pdf := none }
      rcases hr : (pdf_browsing_agent o hist
          { content := query, page_url := none, pdf := none } MAX_DEPTH).result with e | m
      · dsimp only
        have hn := ih (n + 1) (by omega)
          ((hist ++ { content := query, page_url := none, pdf := none } ::
              (pdf_browsing_agent o hist
                { content := query, page_url := none, pdf := none } MAX_DEPTH).newMsgs)
            ++ [errorMsgNode e]) query
        have hsum : (n + 2) * (MAX_DEPTH + 1) =
            (MAX_DEPTH + 1) + (n + 1) * (MAX_DEPTH + 1) := by ring
        rw [hsum]
        exact Nat.add_le_add h8 hn
      · dsimp only
        calc (pdf_browsing_agent o hist
              { content := query, page_url := none, pdf := none } MAX_DEPTH).steps
            ≤ MAX_DEPTH + 1 := h8
          _ ≤ (n + 2) * (MAX_DEPTH + 1) := Nat.le_mul_of_pos_left _ (by omega)

/- ------------------------------------------------------------------
Claim C3 (corrected).
------------------------------------------------------------------ -/

/-- Claim C3, counterexample to the claim as stated: when the nested
invocation (the fetch of the model-proposed URL) fails with a content
mismatch while plenty of retry budget remains, the invocation that issued
that URL does not re-issue it: the event right after each failing fetch is
a fresh top-level search for the query (the whole attempt restarts), and
the run makes exactly MAX_RETRIES attempts in total rather than retrying
at every level. -/
theorem c3_counterexample_midlevel_failure_propagates :
    (pdf_finder_agent mismatchOracle [] "q" MAX_RETRIES).events =
      [.searchEv "q", .askEv (.searchResults []), .fetchEv "http://x.example/",
       .searchEv "q", .askEv (.searchResults []), .fetchEv "http://x.example/",
       .searchEv "q", .askEv (.searchResults []), .fetchEv "http://x.example/"]
    ∧ (pdf_finder_agent mismatchOracle [] "q" MAX_RETRIES).result =
      .error (.contentMismatch
        "Expected a PDF or HTML document but got text/plain instead.") :=
  ⟨rfl, rfl⟩

/-- Claim C3, amended: only the top level retries.  When an attempt for a
query fails and further attempts remain, pdf_finder_agent re-issues the
same query (not the inner failing request), branching from the failing
attempt: the retry runs on the branch extended with the failed attempt
and its messages, so every previously tried URL stays visible; the result
and the step count are those of the remaining attempts. -/
theorem c3_amended_top_level_retry :
    ∀ (o : Oracle) (hist : List Msg) (query : String) (n : Nat) (e : AgentError),
      (pdf_browsing_agent o hist
        { content := query, page_url := none, pdf := none } MAX_DEPTH).result =
        .error e →
      ((pdf_finder_agent o hist query (n + 2)).result =
        (pdf_finder_agent o
          ((hist ++ { content := query, page_url := none, pdf := none } ::
              (pdf_browsing_agent o hist
                { content := query, page_url := none, pdf := none }
                MAX_DEPTH).newMsgs)
            ++ [errorMsgNode e]) query (n + 1)).result)
      ∧ ((pdf_finder_agent o hist query (n + 2)).steps =
          (pdf_browsing_agent o hist
            { content := query, page_url := none, pdf := none } MAX_DEPTH).steps +
          (pdf_finder_agent o
            ((hist ++ { content := query, page_url := none, pdf := none } ::
                (pdf_browsing_agent o hist
                  { content := query, page_url := none, pdf := none }
                  MAX_DEPTH).newMsgs)
              ++ [errorMsgNode e]) query (n + 1)).steps)
      ∧ (∀ u, u ∈ acollect_tried_urls
            (hist ++ { content := query, page_url := none, pdf := none } ::
              (pdf_browsing_agent o hist
                { content := query, page_url := none, pdf := none }
                MAX_DEPTH).newMsgs) →
          u ∈ acollect_tried_urls
            ((hist ++ { content := query, page_url := none, pdf := none } ::
                (pdf_browsing_agent o hist
                  { content := query, page_url := none, pdf := none }
                  MAX_DEPTH).newMsgs)
              ++ [errorMsgNode e])) := by
  intro o hist query n e h
  refine ⟨?_, ?_, ?_⟩
  · simp only [pdf_finder_agent]
    rw [h]
  · simp only [pdf_finder_agent]
    rw [h]
  · intro u hu
    rw [mem_acollect_tried_urls] at hu ⊢
    rcases hu with ⟨m, hm, hmu⟩
    exact ⟨m, List.mem_append_left _ hm, hmu⟩

/-- Witness for c3_amended_top_level_retry on a concrete failing attempt. -/
theorem c3_amended_top_level_retry_witness :
    (pdf_browsing_agent mismatchOracle []
      { content := "q", page_url := none, pdf := none } MAX_DEPTH).result =
      .error (.contentMismatch
        "Expected a PDF or HTML document but got text/plain instead.")
    ∧ (pdf_finder_agent mismatchOracle [] "q" 2).result =
      (pdf_finder_agent mismatchOracle
        (([] ++ { content := "q", page_url := none, pdf := none } ::
            (pdf_browsing_agent mismatchOracle []
              { content := "q", page_url := none, pdf := none }
              MAX_DEPTH).newMsgs)
          ++ [errorMsgNode (.contentMismatch
              "Expected a PDF or HTML document but got text/plain instead.")])
        "q" 1).result :=
  ⟨rfl,
   (c3_amended_top_level_retry mismatchOracle [] "q" 0
     (.contentMismatch
       "Expected a PDF or HTML document but got text/plain instead.") rfl).1⟩

/- ------------------------------------------------------------------
Claim C4 (corrected).
------------------------------------------------------------------ -/

/-- Claim C4, counterexample to the claim as stated: a request message
whose content parses as a URL but which lacks the page_url attribute is
routed to SEARCH, not FETCH: the run opens with a search event for that
content and never fetches it.  The branch condition is the presence of
the page_url attribute, not URL-parsing of the content. -/
theorem c4_counterexample_url_content_searches :
    is_valid_url "https://example.com/a.pdf" = true
    ∧ (pdf_browsing_agent noUrlOracle []
        { content := "https://example.com/a.pdf", page_url := none, pdf := none }
        MAX_DEPTH).events =
      [.searchEv "https://example.com/a.pdf", .askEv (.searchResults [])]
    ∧ Event.fetchEv "https://example.com/a.pdf" ∉
        (pdf_browsing_agent noUrlOracle []
          { content := "https://example.com/a.pdf", page_url := none, pdf := none }
          MAX_DEPTH).events := by
  refine ⟨rfl, rfl, ?_⟩
  intro hmem
  rw [show (pdf_browsing_agent noUrlOracle []
      { content := "https://example.com/a.pdf", page_url := none, pdf := none }
      MAX_DEPTH).events =
      [.searchEv "https://example.com/a.pdf", .askEv (.searchResults [])] from rfl]
    at hmem
  simp at hmem

/-- Claim C4, amended: the controller transitions to FETCH exactly when
the request message carries the page_url attribute (the first event is
then the fetch of that attribute), and to SEARCH otherwise (the first
event is then a search for the message content), independently of whether
the content parses as a URL. -/
theorem c4_amended_fetch_iff_page_url_attr :
    ∀ (o : Oracle) (hist : List Msg) (request : Msg) (d : Nat) (u : String),
      (request.page_url = some u →
        (pdf_browsing_agent o hist request (d + 1)).events.head? =
          some (Event.fetchEv u))
      ∧ (request.page_url = none →
        (pdf_browsing_agent o hist request (d + 1)).events.head? =
          some (Event.searchEv request.content)) := by
  intro o hist request d u
  constructor
  · intro h
    simp only [pdf_browsing_agent]
    rcases hs : browse_step o hist request with ⟨r, evs⟩ | ⟨evs, nextMsg⟩
    · have hev := browse_step_page_url_some o hist request u h
      rw [hs] at hev
      dsimp only [StepResult.events] at hev
      dsimp only
      rcases hev with h1 | ⟨c, h1⟩ <;> rw [h1] <;> rfl
    · have hev := browse_step_page_url_some o hist request u h
      rw [hs] at hev
      dsimp only [StepResult.events] at hev
      dsimp only
      rcases hev with h1 | ⟨c, h1⟩ <;> rw [h1] <;> rfl
  · intro h
    simp only [pdf_browsing_agent]
    rcases hs : browse_step o hist request with ⟨r, evs⟩ | ⟨evs, nextMsg⟩
    · have hev := browse_step_page_url_none o hist request h
      rw [hs] at hev
      dsimp only [StepResult.events] at hev
      dsimp only
      rw [hev]
      rfl
    · have hev := browse_step_page_url_none o hist request h
      rw [hs] at hev
      dsimp only [StepResult.events] at hev
      dsimp only
      rw [hev]
      rfl

/-- Witness for c4_amended_fetch_iff_page_url_attr: a message carrying a
page_url attribute is fetched, a plain query message is searched. -/
theorem c4_amended_fetch_iff_page_url_attr_witness :
    ((Msg.mk "http://x.example/" (some "http://x.example/") none).page_url =
      some "http://x.example/"
    ∧ (pdf_browsing_agent loopingOracle []
        (Msg.mk "http://x.example/" (some "http://x.example/") none)
        (6 + 1)).events.head? = some (Event.fetchEv "http://x.example/"))
    ∧ ((Msg.mk "q" none none).page_url = none
    ∧ (pdf_browsing_agent loopingOracle [] (Msg.mk "q" none none)
        (6 + 1)).events.head? = some (Event.searchEv "q")) :=
  ⟨⟨rfl,
    (c4_amended_fetch_iff_page_url_attr loopingOracle []
      (Msg.mk "http://x.example/" (some "http://x.example/") none) 6
      "http://x.example/").1 rfl⟩,
   ⟨rfl,
    (c4_amended_fetch_iff_page_url_attr loopingOracle []
      (Msg.mk "q" none none) 6 "").2 rfl⟩⟩

/- ------------------------------------------------------------------
Claim C5 (confirmed).
------------------------------------------------------------------ -/

/-- Claim C5: the tried-URL collector is sound (every collected URL is the
page_url attribute of some message of the ancestor chain) and complete
(every URL the controller fetched during a browsing run is collected from
the final chain of that run, the original chain extended with the request
and the messages the run appended). -/
theorem c5_tried_urls_sound_complete :
    (∀ (h : List Msg) (u : String), u ∈ acollect_tried_urls h →
        ∃ m ∈ h, m.page_url = some u)
    ∧ (∀ (o : Oracle) (d : Nat) (hist : List Msg) (request : Msg) (u : String),
        Event.fetchEv u ∈ (pdf_browsing_agent o hist request d).events →
        u ∈ acollect_tried_urls
          (hist ++ request :: (pdf_browsing_agent o hist request d).newMsgs)) := by
  constructor
  · intro h u hu
    exact mem_acollect_tried_urls.mp hu
  · intro o d
    induction d with
    | zero =>
      intro hist request u hmem
      simp [pdf_browsing_agent] at hmem
    | succ d ih =>
      intro hist request u hmem
      simp only [pdf_browsing_agent] at hmem ⊢
      rcases hs : browse_step o hist request with ⟨r, evs⟩ | ⟨evs, nextMsg⟩
      · rw [hs] at hmem
        dsimp only at hmem ⊢
        have hpu : request.page_url = some u :=
          @browse_step_fetch_mem o hist request u (by rw [hs]; exact hmem)
        rw [mem_acollect_tried_urls]
        exact ⟨request, by simp, hpu⟩
      · rw [hs] at hmem
        dsimp only at hmem ⊢
        rcases List.mem_append.mp hmem with h1 | h2
        · have hpu : request.page_url = some u :=
            @browse_step_fetch_mem o hist request u (by rw [hs]; exact h1)
          rw [mem_acollect_tried_urls]
          exact ⟨request, by simp, hpu⟩
        · have hrec := ih (hist ++ [request]) nextMsg u h2
          rw [mem_acollect_tried_urls] at hrec ⊢
          rcases hrec with ⟨m, hm, hmu⟩
          refine ⟨m, ?_, hmu⟩
          simp only [List.append_assoc, List.singleton_append] at hm
          exact hm

/-- Witness for c5_tried_urls_sound_complete on a concrete run: the URL
the looping oracle keeps proposing is fetched and indeed collected from
the final chain. -/
theorem c5_tried_urls_sound_complete_witness :
    ("http://x.example/" ∈ acollect_tried_urls
        [Msg.mk "u" (some "http://x.example/") none]
    ∧ ∃ m ∈ [Msg.mk "u" (some "http://x.example/") none],
        m.page_url = some "http://x.example/")
    ∧ (Event.fetchEv "http://x.example/" ∈
        (pdf_browsing_agent loopingOracle [] (Msg.mk "q" none none)
          MAX_DEPTH).events
    ∧ "http://x.example/" ∈ acollect_tried_urls
        ((Msg.mk "q" none none) ::
          (pdf_browsing_agent loopingOracle [] (Msg.mk "q" none none)
            MAX_DEPTH).newMsgs)) :=
  ⟨⟨by decide,
    c5_tried_urls_sound_complete.1 [Msg.mk "u" (some "http://x.example/") none]
      "http://x.example/" (by decide)⟩,
   ⟨by decide,
    c5_tried_urls_sound_complete.2 loopingOracle MAX_DEPTH []
      (Msg.mk "q" none none) "http://x.example/" (by decide)⟩⟩

/- ------------------------------------------------------------------
Claim C6 (confirmed).
------------------------------------------------------------------ -/

/-- Claim C6: in a search step the list forwarded to the model is the raw
result list with every already-tried link removed (comparison on the
stripped link) and, REMOVE_GAIA_LINKS being enabled in the deployed
configuration, with every deny-listed link removed; and the deny-list
filter of get_serpapi_results removes every deny-listed entry of the raw
result set before anything else sees it. -/
theorem c6_search_filtering :
    (∀ (o : Oracle) (hist : List Msg) (request : Msg) (d : Nat),
      request.page_url = none →
        (pdf_browsing_agent o hist request (d + 1)).events.take 2 =
          [Event.searchEv request.content,
           Event.askEv (.searchResults (searched_results o hist request))]
        ∧ ∀ r ∈ searched_results o hist request,
            pyStrip r.link ∉ acollect_tried_urls (hist ++ [request])
            ∧ gaia_link_denied r.link = false)
    ∧ (∀ (raw : List SearchResult) (r : SearchResult),
        r ∈ get_serpapi_results raw true → gaia_link_denied r.link = false) := by
  have hraw : ∀ (raw : List SearchResult) (r : SearchResult),
      r ∈ get_serpapi_results raw true → gaia_link_denied r.link = false := by
    intro raw r hr
    unfold get_serpapi_results at hr
    rw [if_pos rfl] at hr
    have := (List.mem_filter.mp hr).2
    simpa using this
  refine ⟨?_, hraw⟩
  intro o hist request d h
  constructor
  · have hev := browse_step_page_url_none o hist request h
    simp only [pdf_browsing_agent]
    rcases hs : browse_step o hist request with ⟨r, evs⟩ | ⟨evs, nextMsg⟩ <;>
      · rw [hs] at hev
        dsimp only [StepResult.events] at hev
        dsimp only
        rw [hev]
        rfl
  · intro r hr
    unfold searched_results at hr
    have hmem := List.mem_filter.mp hr
    constructor
    · simpa using hmem.2
    · have h1 := hmem.1
      rw [show REMOVE_GAIA_LINKS = true from rfl] at h1
      exact hraw _ _ h1

/-- Witness for c6_search_filtering: a raw result set holding one
deny-listed entry and one clean entry loses exactly the deny-listed one,
and a clean forwarded result is neither tried nor denied. -/
theorem c6_search_filtering_witness :
    ((Msg.mk "q" none none).page_url = none
    ∧ ∀ r ∈ searched_results loopingOracle [] (Msg.mk "q" none none),
        pyStrip r.link ∉ acollect_tried_urls ([] ++ [Msg.mk "q" none none])
        ∧ gaia_link_denied r.link = false)
    ∧ (SearchResult.mk "t" "https://ok.example/" ∈
        get_serpapi_results
          [SearchResult.mk "t" "https://ok.example/",
           SearchResult.mk "gaia" "https://x.example/gaia-benchmark/answers"]
          true
    ∧ gaia_link_denied "https://ok.example/" = false
    ∧ get_serpapi_results
        [SearchResult.mk "t" "https://ok.example/",
         SearchResult.mk "gaia" "https://x.example/gaia-benchmark/answers"]
        true = [SearchResult.mk "t" "https://ok.example/"]) :=
  ⟨⟨rfl,
    ((c6_search_filtering.1 loopingOracle [] (Msg.mk "q" none none) 6) rfl).2⟩,
   ⟨by decide,
    c6_search_filtering.2
      [SearchResult.mk "t" "https://ok.example/",
       SearchResult.mk "gaia" "https://x.example/gaia-benchmark/answers"]
      (SearchResult.mk "t" "https://ok.example/") (by decide),
    by decide⟩⟩

/- ------------------------------------------------------------------
Claim C7 (corrected).
------------------------------------------------------------------ -/

/-- Claim C7, counterexample to the claim as stated: for a candidate
returned by the model, pdf_browsing_agent calls assert_valid_url with
error_class ContentNotFoundError, so the raised kind is ContentNotFound,
not NotAUrl (NotAUrl is only the default of assert_valid_url); the
payload is still exactly the invalid text. -/
theorem c7_counterexample_error_kind_content_not_found :
    (pdf_browsing_agent noUrlOracle []
      { content := "q", page_url := none, pdf := none } MAX_DEPTH).result =
      .error (.contentNotFound "no url found")
    ∧ assert_valid_url "no url found" AgentError.contentNotFound =
      .error (.contentNotFound "no url found")
    ∧ AgentError.isNotAUrl (.contentNotFound "no url found") = false :=
  ⟨rfl, rfl, rfl⟩

/-- Claim C7, amended: assert_valid_url raises exactly when the candidate
does not parse as an absolute URI with both a scheme and a host
component, and the raised error is the supplied error class applied to
exactly the invalid text; the kind is NotAUrl only under the default
class, while the pdf_browsing_agent call site supplies
ContentNotFoundError. -/
theorem c7_amended_validation :
    ∀ (s : String) (ec : String → AgentError),
      ((∃ e, assert_valid_url s ec = .error e) ↔ is_valid_url s = false)
      ∧ (assert_valid_url s ec = .error (ec s) ∨ assert_valid_url s ec = .ok ())
      ∧ (is_valid_url s = true ↔
          ∃ parts, urlsplit_model s = .ok parts
            ∧ parts.scheme ≠ "" ∧ parts.netloc ≠ "") := by
  intro s ec
  refine ⟨?_, ?_, ?_⟩
  · by_cases hv : is_valid_url s <;> simp [assert_valid_url, hv]
  · by_cases hv : is_valid_url s <;> simp [assert_valid_url, hv]
  · unfold is_valid_url
    rcases hp : urlsplit_model s with u | parts
    · simp
    · simp [Bool.and_eq_true, bne_iff_ne]

/- ------------------------------------------------------------------
Claim C8 (corrected).
------------------------------------------------------------------ -/

/-- Claim C8, counterexample to the claim as stated: when one page of a
three-page document fails to parse, the extraction of the whole document
aborts (there is no per-page error handling around page.extract_text in
adownload_from_web), instead of degrading that page to an empty string as
the spec words it (extract_pdf_text_spec). -/
theorem c8_counterexample_page_failure_aborts :
    extract_pdf_text [some "a", none, some "b"] = none
    ∧ extract_pdf_text_spec [some "a", none, some "b"] = "a\n\nb"
    ∧ extract_pdf_text [some "a", none, some "b"] ≠
        some (extract_pdf_text_spec [some "a", none, some "b"]) := by
  refine ⟨rfl, rfl, ?_⟩
  intro h
  exact Option.noConfusion h

/-- Claim C8, amended: PDF extraction decodes the document page by page
and returns the per-page texts concatenated with newline separators when
every page parses; when any page fails to parse, the whole extraction
fails (the failure propagates, no degradation is performed). -/
theorem c8_amended_join_or_abort :
    (∀ ts : List String,
      extract_pdf_text (ts.map some) = some (String.intercalate "\n" ts))
    ∧ (∀ pages : List (Option String), none ∈ pages →
      extract_pdf_text pages = none) := by
  constructor
  · intro ts
    unfold extract_pdf_text
    have hm : sequencePages (ts.map some) = some ts := by
      induction ts with
      | nil => rfl
      | cons a l ih => simp [sequencePages, ih]
    rw [hm]
  · intro pages hmem
    unfold extract_pdf_text
    have hm : sequencePages pages = none := by
      induction pages with
      | nil => simp at hmem
      | cons a l ih =>
        rcases a with _ | v
        · rfl
        · have h2 : none ∈ l := by
            rcases List.mem_cons.mp hmem with h1 | h2
            · exact absurd h1 (by simp)
            · exact h2
          simp [sequencePages, ih h2]
    rw [hm]

/-- Witness for c8_amended_join_or_abort: an all-good document is joined
with newlines, a document with a failing page aborts. -/
theorem c8_amended_join_or_abort_witness :
    extract_pdf_text [some "a", some "b"] = some "a\nb"
    ∧ (none ∈ [some "a", none] ∧ extract_pdf_text [some "a", none] = none) :=
  ⟨c8_amended_join_or_abort.1 ["a", "b"],
   by decide,
   c8_amended_join_or_abort.2 [some "a", none] (by decide)⟩

/- ------------------------------------------------------------------
Claim C9 (confirmed).
------------------------------------------------------------------ -/

/-- Claim C9: whenever the wrapped pdf text counts more than
PDF_MAX_TOKENS tokens, aextract_pdf_snippets delegates to
apartition_pdf_and_extract_snippets, which unconditionally raises
ForumVersusGaiaError with the message PDF partitioning is not implemented
yet; in particular an oversized PDF never yields a successful snippet
extraction. -/
theorem c9_oversized_pdf_always_fails :
    ∀ (o : Oracle) (pdf_text : String),
      PDF_MAX_TOKENS < o.numTokens (wrap_pdf_text pdf_text) →
      aextract_pdf_snippets o pdf_text =
        apartition_pdf_and_extract_snippets pdf_text
      ∧ aextract_pdf_snippets o pdf_text =
        .error (.forumVersusGaia "PDF partitioning is not implemented yet")
      ∧ ∀ s, aextract_pdf_snippets o pdf_text ≠ .ok s := by
  intro o t h
  have he : aextract_pdf_snippets o t =
      apartition_pdf_and_extract_snippets t := by
    unfold aextract_pdf_snippets
    rw [if_pos h]
  refine ⟨he, he.trans rfl, ?_⟩
  intro s hc
  rw [he] at hc
  exact absurd hc (by simp [apartition_pdf_and_extract_snippets])

/-- Witness for c9_oversized_pdf_always_fails with an oracle reporting
PDF_MAX_TOKENS + 1 tokens. -/
theorem c9_oversized_pdf_always_fails_witness :
    PDF_MAX_TOKENS < bigPdfOracle.numTokens (wrap_pdf_text "x")
    ∧ aextract_pdf_snippets bigPdfOracle "x" =
        .error (.forumVersusGaia "PDF partitioning is not implemented yet") :=
  ⟨by decide,
   (c9_oversized_pdf_always_fails bigPdfOracle "x" (by decide)).2.1⟩

/- ------------------------------------------------------------------
Association-list lemmas for the LRU cache model.
------------------------------------------------------------------ -/

theorem assocFind_eq_none_iff {K V : Type} [DecidableEq K]
    (c : List (K × V)) (k : K) :
    assocFind c k = none ↔ k ∉ c.map Prod.fst := by
  induction c with
  | nil => simp [assocFind]
  | cons p ps ih =>
    rw [List.map_cons, List.mem_cons]
    by_cases h : p.1 = k
    · simp only [assocFind, if_pos h]
      constructor
      · intro hn
        exact Option.noConfusion hn
      · intro hn
        exact absurd (Or.inl h.symm) hn
    · simp only [assocFind, if_neg h]
      rw [ih]
      constructor
      · intro hn hmem
        rcases hmem with h1 | h2
        · exact h h1.symm
        · exact hn h2
      · intro hn h2
        exact hn (Or.inr h2)

theorem assocFind_cons_self {K V : Type} [DecidableEq K]
    (c : List (K × V)) (k : K) (v : V) :
    assocFind ((k, v) :: c) k = some v := by
  simp [assocFind]

theorem assocFind_cons_ne {K V : Type} [DecidableEq K]
    (c : List (K × V)) (k k' : K) (v : V) (h : k' ≠ k) :
    assocFind ((k, v) :: c) k' = assocFind c k' := by
  simp [assocFind, Ne.symm h]

theorem assocFind_removeKey_ne {K V : Type} [DecidableEq K]
    (c : List (K × V)) (k k' : K) (h : k' ≠ k) :
    assocFind (removeKey c k) k' = assocFind c k' := by
  induction c with
  | nil => rfl
  | cons p ps ih =>
    by_cases hp : p.1 = k
    · have hp' : ¬ p.1 = k' := by
        intro hc
        exact h (by rw [← hc]; exact hp)
      simp only [removeKey, if_pos hp, assocFind, if_neg hp']
    · simp only [removeKey, if_neg hp, assocFind]
      by_cases hp' : p.1 = k'
      · simp only [if_pos hp']
      · simp only [if_neg hp', ih]

theorem mem_map_fst_removeKey_ne {K V : Type} [DecidableEq K]
    (c : List (K × V)) (k x : K) (h : x ≠ k) :
    x ∈ (removeKey c k).map Prod.fst ↔ x ∈ c.map Prod.fst := by
  induction c with
  | nil => simp [removeKey]
  | cons p ps ih =>
    by_cases hp : p.1 = k
    · simp only [removeKey, if_pos hp, List.map_cons, List.mem_cons]
      constructor
      · intro h2
        exact Or.inr h2
      · rintro (h1 | h2)
        · exact absurd (h1.trans hp) h
        · exact h2
    · simp only [removeKey, if_neg hp, List.map_cons, List.mem_cons]
      rw [ih]

theorem not_mem_map_fst_removeKey_self {K V : Type} [DecidableEq K]
    (c : List (K × V)) (k : K) :
    (c.map Prod.fst).Nodup → k ∉ (removeKey c k).map Prod.fst := by
  induction c with
  | nil =>
    intro _
    simp [removeKey]
  | cons p ps ih =>
    intro hnd
    rw [List.map_cons, List.nodup_cons] at hnd
    by_cases hp : p.1 = k
    · simp only [removeKey, if_pos hp]
      rw [← hp]
      exact hnd.1
    · simp only [removeKey, if_neg hp, List.map_cons, List.mem_cons]
      intro hmem
      rcases hmem with h1 | h2
      · exact hp h1.symm
      · exact ih hnd.2 h2

theorem removeKey_sublist {K V : Type} [DecidableEq K]
    (c : List (K × V)) (k : K) : List.Sublist (removeKey c k) c := by
  induction c with
  | nil => simp [removeKey]
  | cons p ps ih =>
    by_cases hp : p.1 = k
    · simp only [removeKey, if_pos hp]
      exact List.sublist_cons_self p ps
    · simp only [removeKey, if_neg hp]
      exact ih.cons₂ p

theorem consultCount_cons {K V : Type} [DecidableEq K]
    (e : K × V × Bool) (l : List (K × V × Bool)) (k : K) :
    consultCount (e :: l) k =
      (if e.1 = k ∧ e.2.2 = true then 1 else 0) + consultCount l k := by
  by_cases h1 : e.1 = k <;> by_cases h2 : e.2.2 = true <;>
    simp [consultCount, List.filter_cons, h1, h2, Nat.add_comm]

/-- With no eviction possible (never more distinct keys than
LRU_MAXSIZE), an lru_cache run consults the provider at most once per
key, never re-consults a key already cached, returns the cached value for
every key already cached, and returns equal values for any two calls with
the same key. -/
theorem lruRun_no_evict_spec {K V : Type} [DecidableEq K]
    (provider : K → Nat → V) :
    ∀ (calls : List K) (st : LruState K V) (seen : List K),
      (st.cache.map Prod.fst).Nodup →
      (∀ k, k ∈ st.cache.map Prod.fst ↔ k ∈ seen) →
      (∀ l : List K, l.Nodup → (∀ x ∈ l, x ∈ seen ++ calls) →
        l.length ≤ LRU_MAXSIZE) →
      (∀ k v, assocFind st.cache k = some v →
        ∀ e ∈ lruRun provider st calls, e.1 = k → e.2.1 = v)
      ∧ (∀ k, k ∈ seen → consultCount (lruRun provider st calls) k = 0)
      ∧ (∀ k, consultCount (lruRun provider st calls) k ≤ 1)
      ∧ (∀ e1 ∈ lruRun provider st calls, ∀ e2 ∈ lruRun provider st calls,
          e1.1 = e2.1 → e1.2.1 = e2.2.1) := by
  intro calls
  induction calls with
  | nil =>
    intro st seen hnd hiff hbound
    refine ⟨?_, ?_, ?_, ?_⟩ <;> simp [lruRun, consultCount]
  | cons k ks ih =>
    intro st seen hnd hiff hbound
    rcases hf : assocFind st.cache k with _ | v
    · -- miss: the provider is consulted, the key is inserted in front,
      -- and since the distinct keys cannot exceed LRU_MAXSIZE nothing is
      -- evicted
      have hknotmem : k ∉ st.cache.map Prod.fst :=
        (assocFind_eq_none_iff st.cache k).mp hf
      have hknotseen : k ∉ seen := fun hc => hknotmem ((hiff k).mpr hc)
      have hnodup2 : (k :: st.cache.map Prod.fst).Nodup :=
        List.nodup_cons.mpr ⟨hknotmem, hnd⟩
      have hsubst : ∀ x ∈ k :: st.cache.map Prod.fst, x ∈ seen ++ (k :: ks) := by
        intro x hx
        rcases List.mem_cons.mp hx with h1 | h2
        · exact List.mem_append_right _ (h1 ▸ List.mem_cons_self k ks)
        · exact List.mem_append_left _ ((hiff x).mp h2)
      have hlen : (k :: st.cache.map Prod.fst).length ≤ LRU_MAXSIZE :=
        hbound _ hnodup2 hsubst
      have hnoevict : ¬ LRU_MAXSIZE <
          ((k, provider k st.counter) :: st.cache).length := by
        have h1 : (k :: st.cache.map Prod.fst).length = st.cache.length + 1 := by
          simp
        rw [h1] at hlen
        simp only [List.length_cons]
        omega
      have hstep : lruStep provider st k =
          ((provider k st.counter, true),
            ⟨(k, provider k st.counter) :: st.cache, st.counter + 1⟩) := by
        unfold lruStep
        rw [hf]
        dsimp only
        rw [if_neg hnoevict]
      have hrun : lruRun provider st (k :: ks) =
          (k, provider k st.counter, true) ::
            lruRun provider
              ⟨(k, provider k st.counter) :: st.cache, st.counter + 1⟩ ks := by
        show (let r := lruStep provider st k;
          (k, r.1.1, r.1.2) :: lruRun provider r.2 ks) = _
        rw [hstep]
      set v := provider k st.counter with hv
      set st1 : LruState K V :=
        ⟨(k, v) :: st.cache, st.counter + 1⟩ with hst1
      have hnd1 : (st1.cache.map Prod.fst).Nodup := by
        simpa using hnodup2
      have hiff1 : ∀ x, x ∈ st1.cache.map Prod.fst ↔ x ∈ k :: seen := by
        intro x
        simp only [hst1, List.map_cons, List.mem_cons]
        constructor
        · rintro (h1 | h2)
          · exact Or.inl h1
          · exact Or.inr ((hiff x).mp h2)
        · rintro (h1 | h2)
          · exact Or.inl h1
          · exact Or.inr ((hiff x).mpr h2)
      have hbound1 : ∀ l : List K, l.Nodup →
          (∀ x ∈ l, x ∈ (k :: seen) ++ ks) → l.length ≤ LRU_MAXSIZE := by
        intro l hl hsub
        refine hbound l hl ?_
        intro x hx
        rcases List.mem_append.mp (hsub x hx) with h1 | h2
        · rcases List.mem_cons.mp h1 with h3 | h4
          · exact List.mem_append_right _ (h3 ▸ List.mem_cons_self k ks)
          · exact List.mem_append_left _ h4
        · exact List.mem_append_right _ (List.mem_cons_of_mem _ h2)
      have IH := ih st1 (k :: seen) hnd1 hiff1 hbound1
      rw [hrun]
      refine ⟨?_, ?_, ?_, ?_⟩
      · intro k0 v0 hfind0 e hmem he1
        have hk0 : k0 ≠ k := by
          intro hc
          rw [hc, hf] at hfind0
          exact Option.noConfusion hfind0
        rcases List.mem_cons.mp hmem with h1 | h2
        · rw [h1] at he1
          exact absurd he1 (Ne.symm hk0)
        · refine IH.1 k0 v0 ?_ e h2 he1
          rw [hst1]
          rw [assocFind_cons_ne st.cache k k0 v hk0]
          exact hfind0
      · intro k0 hk0seen
        have hk0 : k0 ≠ k := fun hc => hknotseen (hc ▸ hk0seen)
        rw [consultCount_cons]
        rw [if_neg (fun hc => hk0 hc.1.symm)]
        rw [IH.2.1 k0 (List.mem_cons_of_mem _ hk0seen)]
      · intro k0
        by_cases hk0 : k0 = k
        · subst hk0
          rw [consultCount_cons]
          rw [if_pos ⟨rfl, rfl⟩]
          rw [IH.2.1 k0 (List.mem_cons_self k0 seen)]
        · rw [consultCount_cons]
          rw [if_neg (fun hc => hk0 hc.1.symm)]
          simpa using IH.2.2.1 k0
      · intro e1 h1 e2 h2 heq
        rcases List.mem_cons.mp h1 with h1a | h1b <;>
          rcases List.mem_cons.mp h2 with h2a | h2b
        · rw [h1a, h2a]
        · have : e2.2.1 = v := by
            refine IH.1 k v ?_ e2 h2b ?_
            · rw [hst1]
              exact assocFind_cons_self st.cache k v
            · rw [← heq, h1a]
          rw [h1a, this]
        · have : e1.2.1 = v := by
            refine IH.1 k v ?_ e1 h1b ?_
            · rw [hst1]
              exact assocFind_cons_self st.cache k v
            · rw [heq, h2a]
          rw [h2a, this]
        · exact IH.2.2.2 e1 h1b e2 h2b heq
    · -- hit: the cached value is returned without consulting the
      -- provider, the entry moves to the front
      have hkmem : k ∈ st.cache.map Prod.fst := by
        by_contra hc
        rw [← assocFind_eq_none_iff st.cache k] at hc
        rw [hc] at hf
        exact Option.noConfusion hf
      have hstep : lruStep provider st k =
          ((v, false), ⟨(k, v) :: removeKey st.cache k, st.counter⟩) := by
        unfold lruStep
        rw [hf]
      have hrun : lruRun provider st (k :: ks) =
          (k, v, false) ::
            lruRun provider ⟨(k, v) :: removeKey st.cache k, st.counter⟩ ks := by
        show (let r := lruStep provider st k;
          (k, r.1.1, r.1.2) :: lruRun provider r.2 ks) = _
        rw [hstep]
      set st1 : LruState K V :=
        ⟨(k, v) :: removeKey st.cache k, st.counter⟩ with hst1
      have hnd1 : (st1.cache.map Prod.fst).Nodup := by
        rw [hst1]
        simp only [List.map_cons]
        refine List.nodup_cons.mpr ⟨?_, ?_⟩
        · exact not_mem_map_fst_removeKey_self st.cache k hnd
        · exact ((removeKey_sublist st.cache k).map Prod.fst).nodup hnd
      have hiff1 : ∀ x, x ∈ st1.cache.map Prod.fst ↔ x ∈ seen := by
        intro x
        rw [hst1]
        simp only [List.map_cons, List.mem_cons]
        constructor
        · rintro (h1 | h2)
          · exact (hiff x).mp (h1 ▸ hkmem)
          · by_cases hx : x = k
            · exact (hiff x).mp (hx ▸ hkmem)
            · exact (hiff x).mp ((mem_map_fst_removeKey_ne st.cache k x hx).mp h2)
        · intro hx
          by_cases hxk : x = k
          · exact Or.inl hxk
          · exact Or.inr ((mem_map_fst_removeKey_ne st.cache k x hxk).mpr
              ((hiff x).mpr hx))
      have hbound1 : ∀ l : List K, l.Nodup →
          (∀ x ∈ l, x ∈ seen ++ ks) → l.length ≤ LRU_MAXSIZE := by
        intro l hl hsub
        refine hbound l hl ?_
        intro x hx
        rcases List.mem_append.mp (hsub x hx) with h1 | h2
        · exact List.mem_append_left _ h1
        · exact List.mem_append_right _ (List.mem_cons_of_mem _ h2)
      have IH := ih st1 seen hnd1 hiff1 hbound1
      have hfind1self : assocFind st1.cache k = some v := by
        rw [hst1]
        exact assocFind_cons_self _ k v
      rw [hrun]
      refine ⟨?_, ?_, ?_, ?_⟩
      · intro k0 v0 hfind0 e hmem he1
        rcases List.mem_cons.mp hmem with h1 | h2
        · have hkk0 : k = k0 := by
            rw [h1] at he1
            exact he1
          subst hkk0
          rw [hfind0] at hf
          have hvv0 : v = v0 := by
            injection hf.symm
          rw [h1, hvv0]
        · refine IH.1 k0 v0 ?_ e h2 he1
          by_cases hk0 : k0 = k
          · subst hk0
            rw [hfind1self]
            rw [hfind0] at hf
            exact hf.symm
          · rw [hst1]
            rw [assocFind_cons_ne _ k k0 v hk0]
            rw [assocFind_removeKey_ne st.cache k k0 hk0]
            exact hfind0
      · intro k0 hk0seen
        rw [consultCount_cons]
        rw [if_neg (fun hc => Bool.noConfusion hc.2)]
        rw [IH.2.1 k0 hk0seen]
      · intro k0
        rw [consultCount_cons]
        rw [if_neg (fun hc => Bool.noConfusion hc.2)]
        simpa using IH.2.2.1 k0
      · intro e1 h1 e2 h2 heq
        rcases List.mem_cons.mp h1 with h1a | h1b <;>
          rcases List.mem_cons.mp h2 with h2a | h2b
        · rw [h1a, h2a]
        · have : e2.2.1 = v := by
            refine IH.1 k v hfind1self e2 h2b ?_
            rw [← heq, h1a]
          rw [h1a, this]
        · have : e1.2.1 = v := by
            refine IH.1 k v hfind1self e1 h1b ?_
            rw [heq, h2a]
          rw [h2a, this]
        · exact IH.2.2.2 e1 h1b e2 h2b heq

/- ------------------------------------------------------------------
Claim C10 (corrected).
------------------------------------------------------------------ -/

set_option maxRecDepth 100000 in
/-- Claim C10, counterexample to the claim as stated: lru_cache keeps at
most 128 entries, so after 129 distinct argument pairs the first pair is
evicted; calling it again consults the provider a second time and, the
provider being free to answer differently across consultations, the two
calls with the same argument pair return different results. -/
theorem c10_counterexample_lru_eviction :
    consultCount (get_serpapi_results_cached countingProvider ⟨[], 0⟩
      evictionCalls) ("0", true) = 2
    ∧ (get_serpapi_results_cached countingProvider ⟨[], 0⟩
        evictionCalls).head? =
      some (("0", true), [{ title := "t", link := "0" }], true)
    ∧ (get_serpapi_results_cached countingProvider ⟨[], 0⟩
        evictionCalls).getLast? =
      some (("0", true), [{ title := "t", link := "129" }], true)
    ∧ ([{ title := "t", link := "0" }] : List SearchResult) ≠
        [{ title := "t", link := "129" }] := by
  refine ⟨by decide, by decide, by decide, by decide⟩

/-- Claim C10, amended: as long as at most LRU_MAXSIZE = 128 distinct
argument pairs are used within the process, any two calls to the memoised
get_serpapi_results with the same (query, remove_gaia_links) pair return
the same cached result and the provider is consulted at most once per
distinct pair; beyond 128 distinct pairs, LRU eviction can break both
guarantees. -/
theorem c10_amended_memoized_within_cache_size :
    ∀ (provider : String × Bool → Nat → List SearchResult)
      (calls : List (String × Bool)),
      calls.dedup.length ≤ LRU_MAXSIZE →
      (∀ k, consultCount
        (get_serpapi_results_cached provider ⟨[], 0⟩ calls) k ≤ 1)
      ∧ (∀ e1 ∈ get_serpapi_results_cached provider ⟨[], 0⟩ calls,
         ∀ e2 ∈ get_serpapi_results_cached provider ⟨[], 0⟩ calls,
          e1.1 = e2.1 → e1.2.1 = e2.2.1) := by
  intro provider calls hsize
  have hbound : ∀ l : List (String × Bool), l.Nodup →
      (∀ x ∈ l, x ∈ ([] : List (String × Bool)) ++ calls) →
      l.length ≤ LRU_MAXSIZE := by
    intro l hl hsub
    have hsubd : l ⊆ calls.dedup := by
      intro x hx
      rw [List.mem_dedup]
      simpa using hsub x hx
    have hlen := (hl.subperm hsubd).length_le
    omega
  have h := lruRun_no_evict_spec
    (fun kb n => get_serpapi_results (provider kb n) kb.2) calls ⟨[], 0⟩ []
    (by simp) (by simp) hbound
  exact ⟨h.2.2.1, h.2.2.2⟩

/-- Witness for c10_amended_memoized_within_cache_size on a two-call
sequence repeating one pair. -/
theorem c10_amended_memoized_within_cache_size_witness :
    ([("a", true), ("a", true)] : List (String × Bool)).dedup.length ≤
      LRU_MAXSIZE
    ∧ consultCount (get_serpapi_results_cached countingProvider ⟨[], 0⟩
        [("a", true), ("a", true)]) ("a", true) ≤ 1 :=
  ⟨by decide,
   (c10_amended_memoized_within_cache_size countingProvider
     [("a", true), ("a", true)] (by decide)).1 ("a", true)⟩

end FVG
